import Mathlib

/-!
Verification of the `network_scanner` monitoring core against its design
specification.  The Python sources (`network_monitor_v1.0.py` ...
`network_monitor_v1.5.py`) are shallowly embedded below: Python numbers are
modelled by `ℚ` (byte counters by `ℤ`), `collections.deque(maxlen=n)` by a
list together with the `dequeAppend` eviction operation, stateful methods by
explicit state passing on a `NetworkMonitor` record, emitted
`update_signal` messages by a structured `Event` list, and the external
world (psutil counters, subprocess ping runs, HTTP, speedtest) by explicit
outcome parameters.
-/

namespace NetworkScanner

/-- Append `x` to a `collections.deque(maxlen := cap)` holding `xs`: the new
element goes to the right and, when the deque is full, the leftmost (oldest)
entries are evicted so that at most `cap` entries remain. -/
def dequeAppend (cap : ℕ) (xs : List ℚ) (x : ℚ) : List ℚ :=
  let ys := xs ++ [x]
  ys.drop (ys.length - cap)

/-- State of `NetworkMonitor` (v1.5, `__init__` lines 24-33): configuration
scalars, the two previous cumulative byte counters, the two rolling windows
(`speed_history = deque(maxlen=history_size)`,
`connection_history = deque(maxlen=10)`) and the cooperative `running` flag.
`target_ip` and `check_interval` are omitted: they only parametrise external
calls and real-time sleeping, which the embedding abstracts. -/
structure NetworkMonitor where
  anomaly_threshold : ℚ
  history_size : ℕ
  previous_bytes_sent : ℤ
  previous_bytes_recv : ℤ
  speed_history : List ℚ
  connection_history : List ℚ
  running : Bool
deriving DecidableEq

/-- Population mean `sum(h) / len(h)` of a window (v1.5 line 68). -/
def windowMean (h : List ℚ) : ℚ := h.sum / (h.length : ℚ)

/-- Population variance `sum((x - mean)^2 for x in h) / len(h)` of a window
(v1.5 line 69 computes `std_dev = windowVariance ** 0.5`). -/
def windowVariance (h : List ℚ) : ℚ :=
  ((h.map fun x => (x - windowMean h) ^ 2).sum) / (h.length : ℚ)

/-- Embedding of `NetworkMonitor.detect_anomalies` (v1.5 lines 64-70).
Appends the sample, returns `False` for a window of fewer than 10 samples,
otherwise compares `abs(current_speed - mean) > threshold * std_dev` where
`std_dev = variance ** 0.5`.  Since `ℚ` has no square root, the comparison is
encoded by the equivalent (for a nonnegative threshold) squared form
`threshold^2 * variance < (current_speed - mean)^2`; theorem
`detect_anomalies_zscore_iff` proves this encoding equal to the source's
real-valued square-root comparison. -/
def detect_anomalies (m : NetworkMonitor) (current_speed : ℚ) :
    NetworkMonitor × Bool :=
  let history := dequeAppend m.history_size m.speed_history current_speed
  let m1 := { m with speed_history := history }
  if history.length < 10 then
    (m1, false)
  else
    (m1, decide (m.anomaly_threshold ^ 2 * windowVariance history <
      (current_speed - windowMean history) ^ 2))

/-- Feed a sequence of per-tick totals to `detect_anomalies`, collecting the
boolean verdicts in order (the detector part of successive `run` ticks). -/
def observeSeq : NetworkMonitor → List ℚ → NetworkMonitor × List Bool
  | m, [] => (m, [])
  | m, x :: xs =>
    let r := detect_anomalies m x
    let rest := observeSeq r.1 xs
    (rest.1, r.2 :: rest.2)

/-- Packet-loss percentage `(sent - received) / sent * 100 if sent > 0 else 0`
(v1.5 line 113). -/
def packetLossPercent (sent received : ℤ) : ℚ :=
  if 0 < sent then ((sent : ℚ) - (received : ℚ)) / (sent : ℚ) * 100 else 0

/-! ### Basic window lemmas -/

theorem dequeAppend_length_le (cap : ℕ) (xs : List ℚ) (x : ℚ) :
    (dequeAppend cap xs x).length ≤ xs.length + 1 := by
  simp [dequeAppend]

theorem dequeAppend_length_le_cap (cap : ℕ) (xs : List ℚ) (x : ℚ) :
    (dequeAppend cap xs x).length ≤ cap := by
  simp [dequeAppend]
  omega

theorem foldl_dequeAppend (cap : ℕ) :
    ∀ (xs ys : List ℚ), ys.length ≤ cap →
      xs.foldl (dequeAppend cap) ys =
        (ys ++ xs).drop (ys.length + xs.length - cap) := by
  intro xs
  induction xs with
  | nil =>
    intro ys hy
    simp [Nat.sub_eq_zero_of_le hy]
  | cons x xs ih =>
    intro ys hy
    have hzlen : (dequeAppend cap ys x).length = ys.length + 1 - (ys.length + 1 - cap) := by
      simp [dequeAppend]
    have hz : (dequeAppend cap ys x).length ≤ cap := by omega
    have hd : ys.length + 1 - cap ≤ (ys ++ [x]).length := by
      simp
    calc (x :: xs).foldl (dequeAppend cap) ys
        = xs.foldl (dequeAppend cap) (dequeAppend cap ys x) := rfl
      _ = ((dequeAppend cap ys x) ++ xs).drop
            ((dequeAppend cap ys x).length + xs.length - cap) := ih _ hz
      _ = (((ys ++ [x]).drop (ys.length + 1 - cap)) ++ xs).drop
            ((dequeAppend cap ys x).length + xs.length - cap) := by
            simp [dequeAppend]
      _ = (((ys ++ [x]) ++ xs).drop (ys.length + 1 - cap)).drop
            ((dequeAppend cap ys x).length + xs.length - cap) := by
            rw [List.drop_append_of_le_length hd]
      _ = ((ys ++ [x]) ++ xs).drop
            ((ys.length + 1 - cap) + ((dequeAppend cap ys x).length + xs.length - cap)) := by
            rw [List.drop_drop]
      _ = (ys ++ x :: xs).drop (ys.length + (x :: xs).length - cap) := by
            have hshape : (ys ++ [x]) ++ xs = ys ++ x :: xs := by simp
            rw [hshape]
            congr 1
            simp
            omega

/-- The state component of `detect_anomalies`: the appended window is stored
back into the monitor, in both branches of the length guard. -/
theorem detect_anomalies_fst (m : NetworkMonitor) (x : ℚ) :
    (detect_anomalies m x).1 =
      { m with speed_history := dequeAppend m.history_size m.speed_history x } := by
  unfold detect_anomalies
  by_cases h : (dequeAppend m.history_size m.speed_history x).length < 10 <;> simp [h]

theorem observeSeq_speed_history (xs : List ℚ) :
    ∀ m : NetworkMonitor, (observeSeq m xs).1.speed_history =
      xs.foldl (dequeAppend m.history_size) m.speed_history := by
  induction xs with
  | nil => intro m; rfl
  | cons x xs ih =>
    intro m
    show (observeSeq (detect_anomalies m x).1 xs).1.speed_history = _
    rw [ih, detect_anomalies_fst]
    rfl

/-- C3: both rolling windows (`speed_history`, capacity `history_size`;
`connection_history`, capacity 10) are `dequeAppend` deques.  Folding
`dequeAppend cap` over any input sequence never retains more than `cap`
entries, and for an input of `cap + k` values the retained contents are
exactly the last `cap` values in order.  The detector's own window is
precisely such a fold. -/
theorem window_capacity_fifo (cap k : ℕ) (xs : List ℚ) (m : NetworkMonitor) :
    ((xs.foldl (dequeAppend cap) []).length ≤ cap) ∧
    (xs.length = cap + k → xs.foldl (dequeAppend cap) [] = xs.drop k) ∧
    (m.speed_history = [] →
      (observeSeq m xs).1.speed_history = xs.foldl (dequeAppend m.history_size) []) := by
  refine ⟨?_, ?_, ?_⟩
  · rw [foldl_dequeAppend cap xs [] (by simp)]
    simp
    omega
  · intro hlen
    rw [foldl_dequeAppend cap xs [] (by simp)]
    simp [hlen]
  · intro hempty
    rw [observeSeq_speed_history, hempty]

/-- C3 witness: five values into a capacity-3 window keep exactly the last
three, and the detector window matches the fold. -/
theorem window_capacity_fifo_witness :
    (([ (1:ℚ), 2, 3, 4, 5 ].foldl (dequeAppend 3) []).length ≤ 3) ∧
    ([ (1:ℚ), 2, 3, 4, 5 ].length = 3 + 2 →
      [ (1:ℚ), 2, 3, 4, 5 ].foldl (dequeAppend 3) [] = [ (1:ℚ), 2, 3, 4, 5 ].drop 2) :=
  ⟨(window_capacity_fifo 3 2 [1, 2, 3, 4, 5]
      ⟨2, 3, 0, 0, [], [], true⟩).1,
   (window_capacity_fifo 3 2 [1, 2, 3, 4, 5]
      ⟨2, 3, 0, 0, [], [], true⟩).2.1⟩

/-- C5: the packet-loss computation returns `(sent - received) / sent * 100`
when `sent > 0` (with a provably nonzero divisor) and `0` when `sent = 0`:
the division is guarded and never divides by zero. -/
theorem packetLossPercent_guarded (sent received : ℤ) :
    (0 < sent →
      packetLossPercent sent received =
        ((sent : ℚ) - (received : ℚ)) / (sent : ℚ) * 100 ∧ (sent : ℚ) ≠ 0) ∧
    (sent = 0 → packetLossPercent sent received = 0) := by
  constructor
  · intro hpos
    refine ⟨by simp [packetLossPercent, hpos], ?_⟩
    exact_mod_cast (by omega : sent ≠ 0)
  · intro hzero
    simp [packetLossPercent, hzero]

/-- C5 witness: 10 sent, 2 received gives an 80 percent loss through the
guarded branch. -/
theorem packetLossPercent_guarded_witness :
    0 < (10 : ℤ) ∧
    (packetLossPercent 10 2 = ((10 : ℚ) - (2 : ℚ)) / (10 : ℚ) * 100 ∧ ((10 : ℤ) : ℚ) ≠ 0) ∧
    ((0 : ℤ) = 0 → packetLossPercent 0 7 = 0) :=
  ⟨by decide, (packetLossPercent_guarded 10 2).1 (by decide),
    (packetLossPercent_guarded 0 7).2⟩

/-- Monitor state as built by `__init__` for a fresh session: default
threshold 2, default window capacity 60, empty windows, running flag set.
The counter baselines are taken as 0. -/
def emptyMonitor : NetworkMonitor :=
  { anomaly_threshold := 2
    history_size := 60
    previous_bytes_sent := 0
    previous_bytes_recv := 0
    speed_history := []
    connection_history := []
    running := true }

theorem observeSeq_cons (m : NetworkMonitor) (x : ℚ) (xs : List ℚ) :
    observeSeq m (x :: xs) =
      ((observeSeq (detect_anomalies m x).1 xs).1,
        (detect_anomalies m x).2 :: (observeSeq (detect_anomalies m x).1 xs).2) := rfl

theorem detect_anomalies_history_le (m : NetworkMonitor) (x : ℚ) :
    (detect_anomalies m x).1.speed_history.length ≤ m.speed_history.length + 1 := by
  rw [detect_anomalies_fst]
  exact dequeAppend_length_le _ _ _

theorem detect_anomalies_short (m : NetworkMonitor) (x : ℚ)
    (h : (dequeAppend m.history_size m.speed_history x).length < 10) :
    (detect_anomalies m x).2 = false := by
  unfold detect_anomalies
  simp [h]

theorem observeSeq_early_false :
    ∀ (xs : List ℚ) (m : NetworkMonitor) (i : ℕ), m.speed_history.length + i < 9 →
      ((observeSeq m xs).2.getD i false) = false := by
  intro xs
  induction xs with
  | nil => intro m i h; simp [observeSeq]
  | cons x xs ih =>
    intro m i h
    cases i with
    | zero =>
      rw [observeSeq_cons]
      simp only [List.getD_cons_zero]
      apply detect_anomalies_short
      have hle := dequeAppend_length_le m.history_size m.speed_history x
      omega
    | succ i =>
      rw [observeSeq_cons]
      simp only [List.getD_cons_succ]
      apply ih
      have hle := detect_anomalies_history_le m x
      omega

/-- C2: the detector answers `false` on every call for which the window holds
fewer than 10 samples after the append; in particular, from an empty window
each of the first nine calls answers `false` whatever the sample values. -/
theorem detect_anomalies_cold_start (m : NetworkMonitor) (x : ℚ) (xs : List ℚ) (i : ℕ) :
    ((dequeAppend m.history_size m.speed_history x).length < 10 →
      (detect_anomalies m x).2 = false) ∧
    (m.speed_history = [] → i < 9 → ((observeSeq m xs).2.getD i false) = false) := by
  constructor
  · exact detect_anomalies_short m x
  · intro hemp hi
    apply observeSeq_early_false
    rw [hemp]
    simpa using hi

/-- C2 witness: one short-window call, and call number 4 of the spec's
end-to-end sequence, both answer `false`. -/
theorem detect_anomalies_cold_start_witness :
    ((dequeAppend emptyMonitor.history_size emptyMonitor.speed_history 5).length < 10) ∧
    (detect_anomalies emptyMonitor 5).2 = false ∧
    emptyMonitor.speed_history = [] ∧
    ((observeSeq emptyMonitor
        [100, 100, 100, 100, 100, 100, 100, 100, 100, 100000]).2.getD 3 false) = false :=
  ⟨by decide,
   (detect_anomalies_cold_start emptyMonitor 5 [] 0).1 (by decide),
   rfl,
   (detect_anomalies_cold_start emptyMonitor 5
      [100, 100, 100, 100, 100, 100, 100, 100, 100, 100000] 3).2 rfl (by decide)⟩

theorem windowVariance_nonneg (h : List ℚ) : 0 ≤ windowVariance h := by
  unfold windowVariance
  apply div_nonneg
  · apply List.sum_nonneg
    intro a ha
    obtain ⟨y, hy, rfl⟩ := List.mem_map.1 ha
    positivity
  · exact_mod_cast Nat.zero_le _

/-- A nonnegative-threshold square-root comparison over the reals agrees with
its squared form over the rationals. -/
theorem sq_cmp_iff_sqrt (t v d : ℚ) (ht : 0 ≤ t) (hv : 0 ≤ v) :
    (t ^ 2 * v < d ^ 2) ↔ ((t : ℝ) * Real.sqrt (v : ℝ) < |(d : ℝ)|) := by
  have hv1 : (0 : ℝ) ≤ (v : ℝ) := by exact_mod_cast hv
  have ht1 : (0 : ℝ) ≤ (t : ℝ) := by exact_mod_cast ht
  have hsq : ((t : ℝ) * Real.sqrt (v : ℝ) < |(d : ℝ)|) ↔
      ((t : ℝ) * Real.sqrt (v : ℝ)) ^ 2 < |(d : ℝ)| ^ 2 :=
    (pow_lt_pow_iff_left₀ (mul_nonneg ht1 (Real.sqrt_nonneg _)) (abs_nonneg _)
      (by norm_num)).symm
  rw [hsq, mul_pow, Real.sq_sqrt hv1, sq_abs]
  exact_mod_cast Iff.rfl

theorem detect_anomalies_eval (m : NetworkMonitor) (x : ℚ)
    (h : ¬ (dequeAppend m.history_size m.speed_history x).length < 10) :
    (detect_anomalies m x).2 =
      decide (m.anomaly_threshold ^ 2 *
          windowVariance (dequeAppend m.history_size m.speed_history x) <
        (x - windowMean (dequeAppend m.history_size m.speed_history x)) ^ 2) := by
  unfold detect_anomalies
  simp [h]

/-- C1: once the window (with the just-appended sample included) holds at
least 10 samples, and for a nonnegative threshold, the detector answers
`true` exactly when `|total - mean|` strictly exceeds
`threshold * sqrt(variance)`, mean and population variance being taken over
the entire current window; in particular equality of the deviation with
`threshold * stddev` answers `false`. -/
theorem detect_anomalies_zscore_iff (m : NetworkMonitor) (x : ℚ)
    (hlen : 10 ≤ (dequeAppend m.history_size m.speed_history x).length)
    (ht : 0 ≤ m.anomaly_threshold) :
    ((detect_anomalies m x).2 = true ↔
      (m.anomaly_threshold : ℝ) *
          Real.sqrt ((windowVariance (dequeAppend m.history_size m.speed_history x) : ℝ)) <
        |((x : ℝ)) - ((windowMean (dequeAppend m.history_size m.speed_history x) : ℝ))|) := by
  have h10 : ¬ (dequeAppend m.history_size m.speed_history x).length < 10 := by omega
  rw [detect_anomalies_eval m x h10, decide_eq_true_eq]
  rw [sq_cmp_iff_sqrt m.anomaly_threshold _ _ ht
    (windowVariance_nonneg (dequeAppend m.history_size m.speed_history x))]
  rw [Rat.cast_sub]

/-- Monitor with nine identical samples already in its speed window, as in
the end-to-end scenario of the specification. -/
def baselineMonitor : NetworkMonitor :=
  { emptyMonitor with speed_history := [100, 100, 100, 100, 100, 100, 100, 100, 100] }

/-- C1 witness: the tenth sample of the spec scenario makes the window reach
10 entries and the iff applies there with threshold 2. -/
theorem detect_anomalies_zscore_iff_witness :
    10 ≤ (dequeAppend baselineMonitor.history_size baselineMonitor.speed_history 100000).length ∧
    0 ≤ baselineMonitor.anomaly_threshold ∧
    ((detect_anomalies baselineMonitor 100000).2 = true ↔
      (baselineMonitor.anomaly_threshold : ℝ) *
          Real.sqrt ((windowVariance
            (dequeAppend baselineMonitor.history_size baselineMonitor.speed_history 100000) : ℝ)) <
        |(((100000 : ℚ) : ℝ)) - ((windowMean
            (dequeAppend baselineMonitor.history_size baselineMonitor.speed_history 100000) : ℝ))|) :=
  ⟨by decide, by decide,
    detect_anomalies_zscore_iff baselineMonitor 100000 (by decide) (by decide)⟩

/-! ### Stability analyzer -/

/-- Qualitative verdict of `analyze_connection_stability` (v1.5 lines
141-152).  The four source strings map, in order of appearance, to the
constructors: "Not enough data for stability analysis" to
`InsufficientData`, "Stable connection" to `Stable`, "Moderate fluctuations"
to `Moderate`, "Unstable connection" to `Unstable`. -/
inductive StabilityVerdict where
  | InsufficientData
  | Stable
  | Moderate
  | Unstable
deriving DecidableEq

/-- List comprehension of v1.5 lines 144-145:
`[abs(h[i] - h[i-1]) for i in range(1, len(h))]` with `h` the latency
window; out-of-range indexing cannot occur, so indexing is embedded with
default 0. -/
def variations (h : List ℚ) : List ℚ :=
  (List.range' 1 (h.length - 1)).map fun i => |h.getD i 0 - h.getD (i - 1) 0|

/-- Embedding of `NetworkMonitor.analyze_connection_stability` (v1.5 lines
141-152).  The method only reads `self.connection_history`; the state is
returned unchanged. -/
def analyze_connection_stability (m : NetworkMonitor) :
    NetworkMonitor × StabilityVerdict :=
  (m,
    if m.connection_history.length < 5 then StabilityVerdict.InsufficientData
    else
      let avg_variation := (variations m.connection_history).sum /
        ((variations m.connection_history).length : ℚ)
      if avg_variation < 5 then StabilityVerdict.Stable
      else if avg_variation < 20 then StabilityVerdict.Moderate
      else StabilityVerdict.Unstable)

/-- Absolute consecutive differences in chronological order, written the way
the specification describes them (first-order variation), to be compared
with the source's index-based `variations`. -/
def consecDiffs : List ℚ → List ℚ
  | a :: b :: rest => |b - a| :: consecDiffs (b :: rest)
  | _ => []

/-- Mean of the absolute consecutive differences (specification section 4.4). -/
def meanVariation (h : List ℚ) : ℚ :=
  (consecDiffs h).sum / ((consecDiffs h).length : ℚ)

theorem variations_eq_consecDiffs : ∀ h : List ℚ, variations h = consecDiffs h := by
  intro h
  induction h with
  | nil => rfl
  | cons a t ih =>
    cases t with
    | nil => rfl
    | cons b rest =>
      show variations (a :: b :: rest) = |b - a| :: consecDiffs (b :: rest)
      rw [← ih]
      simp only [variations, List.length_cons]
      have h1 : rest.length + 1 + 1 - 1 = rest.length + 1 := rfl
      have h2 : rest.length + 1 - 1 = rest.length := rfl
      rw [h1, h2, List.range'_succ, List.map_cons]
      congr 1
      have hr : List.range' 2 rest.length =
          (List.range' 1 rest.length).map (1 + ·) := by
        rw [List.map_add_range']
      rw [hr, List.map_map]
      apply List.map_congr_left
      intro i hi
      have h1i : 1 ≤ i := (List.mem_range'_1.1 hi).1
      obtain ⟨j, rfl⟩ : ∃ j, i = j + 1 := ⟨i - 1, by omega⟩
      have e1 : 1 + (j + 1) = j + 1 + 1 := by omega
      simp only [Function.comp_apply, e1, List.getD_cons_succ]
      have e2 : j + 1 + 1 - 1 = j + 1 := rfl
      have e3 : j + 1 - 1 = j := rfl
      rw [e2, e3]
      simp [List.getD_cons_succ]

theorem meanVariation_eq (h : List ℚ) :
    meanVariation h = (variations h).sum / ((variations h).length : ℚ) := by
  rw [meanVariation, variations_eq_consecDiffs]

/-- C4: the analyzer answers `InsufficientData` exactly below five latency
entries; with five or more, the verdict is `Stable` iff the mean absolute
consecutive difference is strictly below 5 ms, `Moderate` iff it lies in
[5, 20), and `Unstable` iff it is at least 20 ms — so exactly 5 is
`Moderate` and exactly 20 is `Unstable`. -/
theorem analyze_stability_classification (m : NetworkMonitor) :
    ((analyze_connection_stability m).2 = StabilityVerdict.InsufficientData ↔
      m.connection_history.length < 5) ∧
    (5 ≤ m.connection_history.length →
      (((analyze_connection_stability m).2 = StabilityVerdict.Stable ↔
          meanVariation m.connection_history < 5) ∧
       ((analyze_connection_stability m).2 = StabilityVerdict.Moderate ↔
          5 ≤ meanVariation m.connection_history ∧
            meanVariation m.connection_history < 20) ∧
       ((analyze_connection_stability m).2 = StabilityVerdict.Unstable ↔
          20 ≤ meanVariation m.connection_history))) := by
  by_cases h5 : m.connection_history.length < 5
  · constructor
    · simp [analyze_connection_stability, h5]
    · intro h
      omega
  · have hmv := meanVariation_eq m.connection_history
    by_cases hA : meanVariation m.connection_history < 5
    · have hv2 : (analyze_connection_stability m).2 = StabilityVerdict.Stable := by
        rw [hmv] at hA
        simp [analyze_connection_stability, h5, hA]
      have hn5 : ¬ (5 : ℚ) ≤ meanVariation m.connection_history := not_le.2 hA
      have hn20 : ¬ (20 : ℚ) ≤ meanVariation m.connection_history :=
        not_le.2 (lt_trans hA (by norm_num))
      exact ⟨by simp [hv2, h5], fun _ =>
        ⟨by simp [hv2, hA], by simp [hv2, hn5], by simp [hv2, hn20]⟩⟩
    · by_cases hB : meanVariation m.connection_history < 20
      · have hv2 : (analyze_connection_stability m).2 = StabilityVerdict.Moderate := by
          rw [hmv] at hA hB
          simp [analyze_connection_stability, h5, hA, hB]
        have h5le : (5 : ℚ) ≤ meanVariation m.connection_history := not_lt.1 hA
        have hn20 : ¬ (20 : ℚ) ≤ meanVariation m.connection_history := not_le.2 hB
        exact ⟨by simp [hv2, h5], fun _ =>
          ⟨by simp [hv2, hA], by simp [hv2, h5le, hB], by simp [hv2, hn20]⟩⟩
      · have hv2 : (analyze_connection_stability m).2 = StabilityVerdict.Unstable := by
          rw [hmv] at hA hB
          simp [analyze_connection_stability, h5, hA, hB]
        have h20le : (20 : ℚ) ≤ meanVariation m.connection_history := not_lt.1 hB
        exact ⟨by simp [hv2, h5], fun _ =>
          ⟨by simp [hv2, hA], by simp [hv2, hB], by simp [hv2, h20le]⟩⟩

/-- Monitor whose latency window holds five round-trip samples with mean
first-order variation 39/4 ms. -/
def stabilityMonitor : NetworkMonitor :=
  { emptyMonitor with connection_history := [10, 12, 30, 25, 11] }

/-- C4 witness: with five latency entries the classification applies; the
sample window has mean variation 39/4, hence verdict `Moderate`. -/
theorem analyze_stability_classification_witness :
    5 ≤ stabilityMonitor.connection_history.length ∧
    (((analyze_connection_stability stabilityMonitor).2 = StabilityVerdict.Stable ↔
        meanVariation stabilityMonitor.connection_history < 5) ∧
     ((analyze_connection_stability stabilityMonitor).2 = StabilityVerdict.Moderate ↔
        5 ≤ meanVariation stabilityMonitor.connection_history ∧
          meanVariation stabilityMonitor.connection_history < 20) ∧
     ((analyze_connection_stability stabilityMonitor).2 = StabilityVerdict.Unstable ↔
        20 ≤ meanVariation stabilityMonitor.connection_history)) :=
  ⟨by decide,
   (analyze_stability_classification stabilityMonitor).2 (by decide)⟩

/-! ### Python string fragments used by the ping statistics parse.
Python strings are modelled as lists of characters. -/

/-- Python substring test `pat in s`: true iff `pat` occurs contiguously in
`s` (always true for an empty `pat`). -/
def hasSub (s pat : List Char) : Bool :=
  pat.isPrefixOf s ||
    match s with
    | [] => false
    | _ :: rest => hasSub rest pat

/-- Helper for `splitWords`; `acc` holds the current word reversed. -/
def splitWordsAux : List Char → List Char → List (List Char)
  | [], acc => if acc.isEmpty then [] else [acc.reverse]
  | c :: rest, acc =>
    if c.isWhitespace then
      if acc.isEmpty then splitWordsAux rest []
      else acc.reverse :: splitWordsAux rest []
    else splitWordsAux rest (c :: acc)

/-- Python `str.split()` with no separator: split on runs of whitespace,
producing no empty words. -/
def splitWords (s : List Char) : List (List Char) := splitWordsAux s []

/-- Digit-string value, `none` when empty or containing a non-digit. -/
def parseDigits (ds : List Char) : Option ℕ :=
  if ds.isEmpty then none
  else if ds.all Char.isDigit then
    some (ds.foldl (fun n c => 10 * n + (c.toNat - 48)) 0)
  else none

/-- Python `int(w)` on the decimal forms occurring in ping statistics: an
optional sign followed by digits; anything else raises `ValueError`, which
the embedding reports as `none`. -/
def parseInt (w : List Char) : Option ℤ :=
  match w with
  | '-' :: ds => (parseDigits ds).map fun n => -(n : ℤ)
  | '+' :: ds => (parseDigits ds).map fun n => (n : ℤ)
  | ds => (parseDigits ds).map fun n => (n : ℤ)

/-- The phrase searched for in the ping output (v1.5 line 110). -/
def transmittedPhrase : List Char := "packets transmitted".toList

/-- The `for line in result.stdout.splitlines()` loop of v1.5 lines 109-112:
the first line containing "packets transmitted", if any (the loop breaks at
the first hit; finding none leaves `sent = received = 0`). -/
def findTransmittedLine : List (List Char) → Option (List Char)
  | [] => none
  | line :: rest =>
    if hasSub line transmittedPhrase then some line else findTransmittedLine rest

/-- The statement `sent, received = map(int, line.split()[0:3:2])` (v1.5
line 111): the extended slice keeps the words at indices 0 and 2, so the
unpacking needs at least three words and both `int` conversions must
succeed; otherwise the statement raises to the generic handler, reported
here as `none`. -/
def parseTransmittedCounts (line : List Char) : Option (ℤ × ℤ) :=
  match splitWords line with
  | w0 :: _ :: w2 :: _ => do
    let s ← parseInt w0
    let r ← parseInt w2
    pure (s, r)
  | _ => none

/-! ### Diagnostic probes -/

/-- Outcome of the latency ping run (v1.5 lines 88-101), the successful
float parse of the round-trip average abstracted into `ok`: `ok rtt` is a
zero exit whose summary parses to `rtt`, `failed` a non-zero exit,
`timedOut` a `subprocess.TimeoutExpired`, `error` any other exception
(including a parse failure). -/
inductive LatencyOutcome where
  | ok (rtt : ℚ)
  | failed
  | timedOut
  | error
deriving DecidableEq

/-- Outcome of the packet-loss ping run (v1.5 lines 103-120): a completed
subprocess with exit status and stdout lines, a timeout, or another
exception. -/
inductive PingOutcome where
  | completed (returncode : ℤ) (stdout : List (List Char))
  | timedOut
  | error
deriving DecidableEq

/-- Outcome of the HTTP GET (v1.5 lines 122-127). -/
inductive HttpOutcome where
  | ok (status : ℕ)
  | error
deriving DecidableEq

/-- Outcome of the speedtest run (v1.5 lines 129-139): raw download and
upload rates in bits per second, or any exception. -/
inductive SpeedtestOutcome where
  | ok (download upload : ℚ)
  | error
deriving DecidableEq

/-- External observations consumed by one `troubleshoot` call. -/
structure ProbeEnv where
  dnsResolves : Bool
  latency : LatencyOutcome
  packetLoss : PingOutcome
  http : HttpOutcome
  speedtest : SpeedtestOutcome
deriving DecidableEq

/-- Structured rendering of the monitor thread's emitted signals, one
constructor per emitting site of v1.5. -/
inductive Event where
  | speedUpdate (sent recv : ℤ)
  | graphUpdate (sent recv : ℤ)
  | activity (total : ℤ)
  | anomalyAlert
  | dnsOk
  | dnsFailed
  | latencyMs (rtt : ℚ)
  | pingFailed
  | pingTimedOut
  | latencyError
  | packetLoss (percent : ℚ)
  | packetLossFailed
  | packetLossTimedOut
  | packetLossError
  | httpStatus (code : ℕ)
  | httpError
  | downloadSpeed (mbps : ℚ)
  | uploadSpeed (mbps : ℚ)
  | speedtestError
  | stability (verdict : StabilityVerdict)
deriving DecidableEq

/-- `check_dns_resolution` (v1.5 lines 81-86). -/
def check_dns_resolution (resolves : Bool) : List Event :=
  if resolves then [Event.dnsOk] else [Event.dnsFailed]

/-- `check_latency` (v1.5 lines 88-101): on success the parsed round-trip
time is appended to the `connection_history` deque of capacity 10. -/
def check_latency (outcome : LatencyOutcome) (m : NetworkMonitor) :
    NetworkMonitor × List Event :=
  match outcome with
  | .ok rtt =>
    ({ m with connection_history := dequeAppend 10 m.connection_history rtt },
      [Event.latencyMs rtt])
  | .failed => (m, [Event.pingFailed])
  | .timedOut => (m, [Event.pingTimedOut])
  | .error => (m, [Event.latencyError])

/-- `check_packet_loss` (v1.5 lines 103-120): on a zero exit the stdout
lines are scanned for "packets transmitted"; no such line leaves
`sent = received = 0`; a found line is parsed, a parse failure raising to
the generic handler. -/
def check_packet_loss (outcome : PingOutcome) : List Event :=
  match outcome with
  | .completed rc stdout =>
    if rc = 0 then
      match findTransmittedLine stdout with
      | none => [Event.packetLoss (packetLossPercent 0 0)]
      | some line =>
        match parseTransmittedCounts line with
        | some (s, r) => [Event.packetLoss (packetLossPercent s r)]
        | none => [Event.packetLossError]
    else [Event.packetLossFailed]
  | .timedOut => [Event.packetLossTimedOut]
  | .error => [Event.packetLossError]

/-- `check_http_response` (v1.5 lines 122-127): any completed response
reports its status code, a `RequestException` reports an error. -/
def check_http_response (outcome : HttpOutcome) : List Event :=
  match outcome with
  | .ok status => [Event.httpStatus status]
  | .error => [Event.httpError]

/-- `check_internet_speed` (v1.5 lines 129-139): rates divided by 1,000,000
to Mbps and reported; `(None, None)` on any exception. -/
def check_internet_speed (outcome : SpeedtestOutcome) :
    (Option ℚ × Option ℚ) × List Event :=
  match outcome with
  | .ok download upload =>
    ((some (download / 1000000), some (upload / 1000000)),
      [Event.downloadSpeed (download / 1000000), Event.uploadSpeed (upload / 1000000)])
  | .error => ((none, none), [Event.speedtestError])

/-- `troubleshoot` (v1.5 lines 72-79): the five probes run in sequence
whatever each outcome is, then the stability verdict over the possibly
updated latency window is emitted. -/
def troubleshoot (env : ProbeEnv) (m : NetworkMonitor) :
    NetworkMonitor × List Event :=
  let dnsEvents := check_dns_resolution env.dnsResolves
  let latencyStep := check_latency env.latency m
  let packetEvents := check_packet_loss env.packetLoss
  let httpEvents := check_http_response env.http
  let speedStep := check_internet_speed env.speedtest
  let stabilityStep := analyze_connection_stability latencyStep.1
  (stabilityStep.1,
    dnsEvents ++ latencyStep.2 ++ packetEvents ++ httpEvents ++ speedStep.2 ++
      [Event.stability stabilityStep.2])

theorem check_packet_loss_ne_nil (o : PingOutcome) : check_packet_loss o ≠ [] := by
  cases o with
  | completed rc out =>
    simp only [check_packet_loss]
    split
    · cases hfind : findTransmittedLine out with
      | none => simp
      | some line =>
        cases hp : parseTransmittedCounts line with
        | none => simp [hp]
        | some sr => cases sr; simp [hp]
    · simp
  | timedOut => simp [check_packet_loss]
  | error => simp [check_packet_loss]

/-- C6: a troubleshooting step always contains the contribution of each of
the five probes (every contribution nonempty, so no failure or timeout of
one probe suppresses another) followed by the stability event; in
particular, when the latency probe succeeds and the packet-loss probe times
out, both outcomes are reported and the stability verdict is still
computed. -/
theorem troubleshoot_runs_all_probes (env : ProbeEnv) (m : NetworkMonitor) (rtt : ℚ) :
    ((troubleshoot env m).2 =
      check_dns_resolution env.dnsResolves ++ (check_latency env.latency m).2 ++
        check_packet_loss env.packetLoss ++ check_http_response env.http ++
        (check_internet_speed env.speedtest).2 ++
        [Event.stability (analyze_connection_stability (check_latency env.latency m).1).2]) ∧
    check_dns_resolution env.dnsResolves ≠ [] ∧
    (check_latency env.latency m).2 ≠ [] ∧
    check_packet_loss env.packetLoss ≠ [] ∧
    check_http_response env.http ≠ [] ∧
    (check_internet_speed env.speedtest).2 ≠ [] ∧
    (env.latency = LatencyOutcome.ok rtt →
      Event.latencyMs rtt ∈ (troubleshoot env m).2) ∧
    (env.packetLoss = PingOutcome.timedOut →
      Event.packetLossTimedOut ∈ (troubleshoot env m).2) := by
  refine ⟨rfl, ?_, ?_, check_packet_loss_ne_nil env.packetLoss, ?_, ?_, ?_, ?_⟩
  · cases env.dnsResolves <;> simp [check_dns_resolution]
  · cases env.latency <;> simp [check_latency]
  · cases env.http <;> simp [check_http_response]
  · cases env.speedtest <;> simp [check_internet_speed]
  · intro hl
    simp [troubleshoot, hl, check_latency]
  · intro hp
    simp [troubleshoot, hp, check_packet_loss]

/-- Probe observations of the end-to-end scenario: DNS resolves, latency
succeeds at 20 ms, the packet-loss probe times out, HTTP returns 200, the
speedtest errors out. -/
def scenarioEnv : ProbeEnv :=
  { dnsResolves := true
    latency := LatencyOutcome.ok 20
    packetLoss := PingOutcome.timedOut
    http := HttpOutcome.ok 200
    speedtest := SpeedtestOutcome.error }

/-- C6 witness: in the mixed-outcome scenario both the latency success and
the packet-loss timeout are reported. -/
theorem troubleshoot_runs_all_probes_witness :
    scenarioEnv.latency = LatencyOutcome.ok 20 ∧
    scenarioEnv.packetLoss = PingOutcome.timedOut ∧
    Event.latencyMs 20 ∈ (troubleshoot scenarioEnv emptyMonitor).2 ∧
    Event.packetLossTimedOut ∈ (troubleshoot scenarioEnv emptyMonitor).2 :=
  ⟨rfl, rfl,
   (troubleshoot_runs_all_probes scenarioEnv emptyMonitor 20).2.2.2.2.2.2.1 rfl,
   (troubleshoot_runs_all_probes scenarioEnv emptyMonitor 20).2.2.2.2.2.2.2 rfl⟩

theorem findTransmittedLine_none (stdout : List (List Char))
    (h : ∀ line ∈ stdout, hasSub line transmittedPhrase = false) :
    findTransmittedLine stdout = none := by
  induction stdout with
  | nil => rfl
  | cons line rest ih =>
    have h0 := h line (List.mem_cons_self line rest)
    simp only [findTransmittedLine, h0, Bool.false_eq_true, if_false]
    exact ih fun l hl => h l (List.mem_cons_of_mem _ hl)

/-- A completed run whose statistics line parses to equal counts
(sent = received = 7): the slice keeps the words at indices 0 and 2, so a
line parses only when its third word is numeric. -/
def pingSummaryLine : List Char :=
  "7 x 7 packets transmitted".toList

/-- C9: when the ping process exits with status 0 but no stdout line
contains "packets transmitted", both counters stay 0 and the probe reports
a successful 0 percent loss — the same event as a genuinely lossless run,
so the two are indistinguishable. -/
theorem check_packet_loss_missing_line (stdout : List (List Char))
    (h : ∀ line ∈ stdout, hasSub line transmittedPhrase = false) :
    check_packet_loss (PingOutcome.completed 0 stdout) = [Event.packetLoss 0] ∧
    check_packet_loss (PingOutcome.completed 0 [pingSummaryLine]) = [Event.packetLoss 0] := by
  constructor
  · simp only [check_packet_loss, if_pos rfl, findTransmittedLine_none stdout h]
    simp [packetLossPercent]
  · have hfind : findTransmittedLine [pingSummaryLine] = some pingSummaryLine := by
      decide
    have hparse : parseTransmittedCounts pingSummaryLine = some (7, 7) := by
      decide
    simp only [check_packet_loss, if_pos rfl, hfind, hparse]
    have hloss : packetLossPercent 7 7 = 0 := by
      simp [packetLossPercent]
    rw [hloss]
    simp

/-- Ping chatter without a statistics line. -/
def pingLine1 : List Char :=
  "PING 8.8.8.8 (8.8.8.8) 56(84) bytes of data.".toList

/-- Ping chatter without a statistics line. -/
def pingLine2 : List Char :=
  "64 bytes from 8.8.8.8: ttl=117 time=12.3 ms".toList

/-- C9 witness: a zero-exit run whose two stdout lines lack the phrase
reports a successful 0 percent loss. -/
theorem check_packet_loss_missing_line_witness :
    (∀ line ∈ [pingLine1, pingLine2], hasSub line transmittedPhrase = false) ∧
    check_packet_loss (PingOutcome.completed 0 [pingLine1, pingLine2]) =
      [Event.packetLoss 0] :=
  ⟨by decide,
   (check_packet_loss_missing_line [pingLine1, pingLine2] (by decide)).1⟩

/-- C10: the stability analyzer is a pure reader: it returns the monitor
state unchanged, and a second consecutive call yields the same verdict. -/
theorem analyze_connection_stability_pure (m : NetworkMonitor) :
    (analyze_connection_stability m).1 = m ∧
    (analyze_connection_stability ((analyze_connection_stability m).1)).2 =
      (analyze_connection_stability m).2 :=
  ⟨rfl, rfl⟩

/-! ### Counter sampler and monitor loop -/

/-- `get_network_speed` of v1.5 (lines 52-62): reads the cumulative
counters, returns the per-interval deltas and stores the new baselines.
Unlike v1.0-v1.2, this version has no `try/except`: a failing counter read
(`read = none`) raises out of the method, modelled by `Except.error`. -/
def get_network_speed (read : Option (ℤ × ℤ)) (m : NetworkMonitor) :
    Except Unit (NetworkMonitor × ℤ × ℤ) :=
  match read with
  | none => Except.error ()
  | some (currentSent, currentRecv) =>
    Except.ok
      ({ m with previous_bytes_sent := currentSent, previous_bytes_recv := currentRecv },
        currentSent - m.previous_bytes_sent, currentRecv - m.previous_bytes_recv)

/-- External observations consumed by one iteration of `run` (v1.5 lines
36-47): the counter read (`none` when `psutil` raises) and, should
troubleshooting fire, the probe outcomes. -/
structure TickEnv where
  read : Option (ℤ × ℤ)
  probes : ProbeEnv
deriving DecidableEq

/-- One iteration of the `while self.running` body of `run` (v1.5 lines
36-47): sample, emit the speed, graph and activity events, feed the total
to the detector, and on an anomaly emit the alert and run the
troubleshooting step.  A failing counter read propagates out of the
iteration. -/
def runTick (env : TickEnv) (m : NetworkMonitor) :
    Except Unit (NetworkMonitor × List Event) :=
  match get_network_speed env.read m with
  | Except.error e => Except.error e
  | Except.ok (m1, bytesSent, bytesRecv) =>
    let totalBytes := bytesSent + bytesRecv
    let baseEvents := [Event.speedUpdate bytesSent bytesRecv,
      Event.graphUpdate bytesSent bytesRecv, Event.activity totalBytes]
    let detected := detect_anomalies m1 (totalBytes : ℚ)
    if detected.2 then
      let repaired := troubleshoot env.probes detected.1
      Except.ok (repaired.1, baseEvents ++ [Event.anomalyAlert] ++ repaired.2)
    else
      Except.ok (detected.1, baseEvents)

/-- External stimuli of one monitoring session: loop iterations with their
environment, interleaved with the GUI's `stop` call. -/
inductive Cmd where
  | tick (env : TickEnv)
  | stop
deriving DecidableEq

/-- A whole session (v1.5 lines 35-50): a tick iteration runs only while
`running` holds, `stop` clears the flag, and an uncaught exception in `run`
kills the thread so every remaining stimulus is ignored.  Returns the final
monitor state and the concatenation of all emitted events. -/
def processCmds : NetworkMonitor → List Cmd → NetworkMonitor × List Event
  | m, [] => (m, [])
  | m, Cmd.stop :: rest => processCmds { m with running := false } rest
  | m, Cmd.tick env :: rest =>
    if m.running then
      match runTick env m with
      | Except.error _ => (m, [])
      | Except.ok (m1, events) =>
        let finished := processCmds m1 rest
        (finished.1, events ++ finished.2)
    else processCmds m rest

theorem processCmds_stopped (cs : List Cmd) :
    ∀ m : NetworkMonitor, m.running = false → processCmds m cs = (m, []) := by
  induction cs with
  | nil => intro m h; rfl
  | cons c rest ih =>
    intro m h
    cases c with
    | stop =>
      show processCmds { m with running := false } rest = (m, [])
      have hm : { m with running := false } = m := by
        cases m
        simp_all
      rw [hm, ih m h]
    | tick env =>
      show (if m.running then _ else processCmds m rest) = (m, [])
      rw [h]
      simp only [Bool.false_eq_true, if_false]
      exact ih m h

theorem processCmds_append_stop (cs : List Cmd) :
    ∀ (m : NetworkMonitor) (cet : List Cmd),
      (processCmds m (cs ++ Cmd.stop :: cet)).2 = (processCmds m cs).2 := by
  induction cs with
  | nil =>
    intro m cet
    show (processCmds { m with running := false } cet).2 = ([] : List Event)
    rw [processCmds_stopped cet { m with running := false } rfl]
  | cons c rest ih =>
    intro m cet
    cases c with
    | stop =>
      show (processCmds { m with running := false } (rest ++ Cmd.stop :: cet)).2 =
        (processCmds { m with running := false } rest).2
      exact ih _ cet
    | tick env =>
      show (if m.running then _ else processCmds m (rest ++ Cmd.stop :: cet)).2 =
        (if m.running then _ else processCmds m rest).2
      by_cases hr : m.running = true
      · rw [hr]
        simp only [if_true]
        cases hrt : runTick env m with
        | error e => rfl
        | ok p =>
          show (p.2 ++ (processCmds p.1 (rest ++ Cmd.stop :: cet)).2) =
            (p.2 ++ (processCmds p.1 rest).2)
          rw [ih p.1 cet]
      · have hf : m.running = false := by
          cases hb : m.running
          · rfl
          · exact absurd hb hr
        rw [hf]
        simp only [Bool.false_eq_true, if_false]
        exact ih m cet

/-- C8: once the stop signal is processed the session emits no further
event whatever stimuli follow (every event of a session with a stop
somewhere in it was emitted before that stop), a stopped monitor processes
ticks to no effect at all, and the flag cleared by `stop` is never set
again. -/
theorem processCmds_stop_halts (m : NetworkMonitor) (cs cet : List Cmd) :
    (m.running = false → processCmds m cs = (m, [])) ∧
    ((processCmds m (cs ++ Cmd.stop :: cet)).2 = (processCmds m cs).2) ∧
    ((processCmds m (Cmd.stop :: cet)).1.running = false) := by
  refine ⟨processCmds_stopped cs m, processCmds_append_stop cs m cet, ?_⟩
  show (processCmds { m with running := false } cet).1.running = false
  rw [processCmds_stopped cet { m with running := false } rfl]

/-- A monitor whose session has been stopped. -/
def stoppedMonitor : NetworkMonitor := { emptyMonitor with running := false }

/-- A healthy tick environment: successful counter read. -/
def quietTick : TickEnv := { read := some (0, 0), probes := scenarioEnv }

/-- C8 witness: a stopped monitor ignores a subsequent tick entirely. -/
theorem processCmds_stop_halts_witness :
    stoppedMonitor.running = false ∧
    processCmds stoppedMonitor [Cmd.tick quietTick] = (stoppedMonitor, []) :=
  ⟨rfl, (processCmds_stop_halts stoppedMonitor [Cmd.tick quietTick] []).1 rfl⟩

namespace v1_0

/-- Sampler state of the v1.0 `NetworkMonitor` (v1.0 lines 14-18). -/
structure Sampler where
  previous_bytes_sent : ℤ
  previous_bytes_recv : ℤ
deriving DecidableEq

/-- Log records emitted by v1.0's `get_network_speed`. -/
inductive LogEvent where
  | errorGettingSpeed
deriving DecidableEq

/-- `get_network_speed` of v1.0 (lines 20-34): the whole body sits in a
`try/except Exception` block, so a failing counter read logs an error and
returns a zero sample with the baselines unchanged, and the `monitor` loop
carries on to the next tick. -/
def get_network_speed (read : Option (ℤ × ℤ)) (s : Sampler) :
    Sampler × (ℤ × ℤ) × List LogEvent :=
  match read with
  | none => (s, (0, 0), [LogEvent.errorGettingSpeed])
  | some (currentSent, currentRecv) =>
    ({ previous_bytes_sent := currentSent, previous_bytes_recv := currentRecv },
      (currentSent - s.previous_bytes_sent, currentRecv - s.previous_bytes_recv), [])

end v1_0

/-- A tick whose counter read fails. -/
def failTick : TickEnv := { read := none, probes := scenarioEnv }

/-- C7: divergence between the versions at a failing counter read.  The
v1.0 sampler cited by the claim returns the zero sample `(0, 0)`, logs the
failure and leaves the loop alive, as the claim states; but v1.5's sampler
has no handler, the failure propagates out of `get_network_speed` and
`run`, and the session dies: a failing tick followed by a healthy tick
emits no event at all and the healthy tick never runs. -/
theorem sampler_read_failure_divergence :
    (v1_0.get_network_speed none ⟨3, 4⟩ =
      (⟨3, 4⟩, (0, 0), [v1_0.LogEvent.errorGettingSpeed])) ∧
    (get_network_speed none emptyMonitor = Except.error ()) ∧
    (processCmds emptyMonitor [Cmd.tick failTick, Cmd.tick quietTick] =
      (emptyMonitor, [])) :=
  ⟨rfl, rfl, rfl⟩

end NetworkScanner
